import Mathlib

/-!
Verification development for the data pipeline of `app.py` in the
CRYPTO-ANALYSIS-AND-RISK-ANALYZER repository.

The embedding models the pure data-processing core of the application:
fetch normalisation (`fetch_crypto_data`), the user-entry materialisation and
merge step inside `get_combined_data`, the history logger (`log_history`),
the synthetic placeholder generator (`_placeholder_live_data`), the
cross-sectional statistics (`compute_stats`), the peak/valley detector of
`_render_price_line_chart`, the OHLC resampler of `_render_candlestick_chart`,
and the returns/correlation tail of `_render_cmc_trends_and_corr`.

Modelling conventions:
* Python floats are modelled as exact rationals (`ℚ`).
* Functions that raise (`requests` errors, file-write errors) are modelled
  with `Except`; a caught exception corresponds to matching on `.error`.
* The history CSV is modelled as `Option (List HistoryRecord)` (`none` means
  the file does not exist; creating it with a header corresponds to going
  from `none` to `some`).
* `random.Random` draws are abstract parameters (`rnd : ℕ → ℚ`), consumed in
  the same order as in the source; `uniform lo hi` is modelled as
  `lo + (hi - lo) * u` for the abstract draw `u` and `gauss mu 3.0` as
  `mu + 3 * u`.
-/

namespace CryptoApp

/-- Python `int(x)` conversion of a float: truncation toward zero (`app.py`
uses it as `int(total_volume)` and `int(vol)`).  On the reduced fraction
`num/den` this is the `Int.tdiv` of numerator by denominator. -/
def pyInt (q : ℚ) : ℤ := Int.tdiv q.num (q.den : ℤ)

/-- Floor of a rational, written as the floor division of numerator by
denominator so that it evaluates by kernel reduction. -/
def ratFloor (q : ℚ) : ℤ := Int.fdiv q.num (q.den : ℤ)

/-- Round to the nearest integer, ties to even, which is the tie-breaking rule
of Python `round`. -/
def roundHalfEven (x : ℚ) : ℤ :=
  let f := ratFloor x
  let r := x - f
  if r < 1 / 2 then f
  else if 1 / 2 < r then f + 1
  else if f % 2 = 0 then f else f + 1

/-- Python `round(x, n)` modelled on exact rationals. -/
def pyRound (x : ℚ) (n : ℕ) : ℚ := (roundHalfEven (x * 10 ^ n) : ℚ) / 10 ^ n

/-- Python builtin `max` over a list; the empty case (where Python raises) is
given a junk value, and every use site below guards non-emptiness. -/
def pyMax : List ℚ → ℚ
  | [] => 0
  | x :: xs => xs.foldl max x

/-- Python builtin `min` over a list, as in `pyMax`. -/
def pyMin : List ℚ → ℚ
  | [] => 0
  | x :: xs => xs.foldl min x

/-- One row of the in-memory snapshot table: the dict shape built by
`fetch_crypto_data`, the user-entry loop of `get_combined_data`, and
`_placeholder_live_data`.  Fields missing from a given producer keep their
defaults (e.g. user rows have no `id`/`spark`). -/
structure AssetQuote where
  id : String := ""
  name : String := ""
  symbol : String := ""
  price : ℚ := 0
  change : ℚ := 0
  volume : ℚ := 0
  spark : Option (List ℚ) := none
  source : String := ""
deriving DecidableEq, Repr

/-- The fields of one CoinGecko `/coins/markets` JSON object that
`fetch_crypto_data` reads.  A `none` 24h change models a JSON `null`. -/
structure RawCoin where
  id : String := ""
  name : String := ""
  symbol : String := ""
  current_price : ℚ := 0
  price_change_percentage_24h : Option ℚ := none
  total_volume : ℚ := 0
  sparkline : Option (List ℚ) := none
deriving DecidableEq, Repr

/-- The exception kinds caught by `get_combined_data`
(`requests.RequestException`, `ValueError` from malformed JSON). -/
inductive FetchError
  | requestException
  | valueError
deriving DecidableEq, Repr

/-- The loop body of `fetch_crypto_data` (app.py lines 86-96): normalise one
provider object into a snapshot row; the symbol is uppercased, a missing 24h
change becomes 0, and the source tag is always `"api"`. -/
def normalizeCoin (c : RawCoin) : AssetQuote :=
  { id := c.id, name := c.name, symbol := c.symbol.toUpper,
    price := c.current_price,
    change := c.price_change_percentage_24h.getD 0,
    volume := c.total_volume, spark := c.sparkline, source := "api" }

/-- `fetch_crypto_data` (app.py lines 73-97): the HTTP/JSON outcome is a
parameter; on success every received object is normalised, and a raised
`RequestException`/`ValueError` propagates to the caller. -/
def fetch_crypto_data (response : Except FetchError (List RawCoin)) :
    Except FetchError (List AssetQuote) :=
  response.map (List.map normalizeCoin)

/-- One record of `user_added_data.json`; absent keys are modelled by the
defaults, matching the `u.get(key, default)` reads in `get_combined_data`. -/
structure UserEntry where
  name : String := ""
  symbol : String := ""
  price : ℚ := 0
  change : ℚ := 0
  volume : ℚ := 0
deriving DecidableEq, Repr

/-- The user-entry loop body of `get_combined_data` (app.py lines 185-193):
materialise a stored user entry as a snapshot row tagged `"user"`. -/
def userQuote (u : UserEntry) : AssetQuote :=
  { name := u.name, symbol := u.symbol.toUpper, price := u.price,
    change := u.change, volume := u.volume, source := "user" }

/-- One CSV row of `history.csv`, as assembled by `log_history`. -/
structure HistoryRecord where
  time : String
  name : String
  symbol : String
  price : ℚ
  change : ℚ
  volume : ℚ
  source : String
deriving DecidableEq, Repr

/-- The state of `history.csv` plus the environment fact of whether an append
to it would succeed.  `contents = none` means the file does not exist. -/
structure HistoryFile where
  contents : Option (List HistoryRecord) := none
  writeOk : Bool := true
deriving DecidableEq, Repr

/-- An I/O failure while writing the history CSV. -/
inductive WriteError
  | ioError
deriving DecidableEq, Repr

/-- The row-building loop body of `log_history` (app.py lines 297-308). -/
def quoteRecord (ts : String) (e : AssetQuote) : HistoryRecord :=
  { time := ts, name := e.name, symbol := e.symbol, price := e.price,
    change := e.change, volume := e.volume, source := e.source }

/-- `log_history` (app.py lines 291-312): an empty snapshot returns before
touching the file; otherwise one record per entry, all with timestamp `ts`,
is appended (creating the file, i.e. writing the header, when it does not
exist).  `df.to_csv` is not wrapped in any try/except, so a failing write
raises out of the function. -/
def log_history (fs : HistoryFile) (entries : List AssetQuote) (ts : String) :
    Except WriteError HistoryFile :=
  if entries.isEmpty then .ok fs
  else if fs.writeOk then
    .ok { fs with contents := some (fs.contents.getD [] ++ entries.map (quoteRecord ts)) }
  else .error .ioError

/-- Models `rnd.uniform lo hi` as the abstract draw `u` scaled into the
interval. -/
def uniformDraw (lo hi u : ℚ) : ℚ := lo + (hi - lo) * u

/-- One asset row of `_placeholder_live_data` (app.py lines 238-256); the five
`rnd` draws per asset are consumed in source order. -/
def placeholderRow (rnd : ℕ → ℚ) (i : ℕ) (name sym : String) (base vmin vmax : ℚ) :
    AssetQuote :=
  let drift := uniformDraw (-(1 / 2)) (1 / 2) (rnd (5 * i))
  let vol_factor := uniformDraw (1 / 2) 1 (rnd (5 * i + 1))
  let change := max (-12) (min 12 (drift + 3 * rnd (5 * i + 2)))
  let price := max (1 / 100)
    (base * (1 + change / 100) * (1 + uniformDraw (-(3 / 400)) (3 / 400) (rnd (5 * i + 3))))
  let vol_base := uniformDraw vmin vmax (rnd (5 * i + 4))
  let vol := vol_base * (1 + |change| / 40) * vol_factor
  { id := sym.toLower, name := name, symbol := sym,
    price := pyRound price 4, change := pyRound change 2,
    volume := (pyInt vol : ℚ), spark := none, source := "demo" }

/-- `_placeholder_live_data` (app.py lines 227-257): the synthetic fallback
dataset for the five fixed assets, every row tagged `"demo"`. -/
def _placeholder_live_data (rnd : ℕ → ℚ) : List AssetQuote :=
  [ placeholderRow rnd 0 "Bitcoin" "BTC" 60000 15000000000 40000000000,
    placeholderRow rnd 1 "Ethereum" "ETH" 2800 5000000000 20000000000,
    placeholderRow rnd 2 "Solana" "SOL" 110 800000000 6000000000,
    placeholderRow rnd 3 "XRP" "XRP" (55 / 100) 500000000 3000000000,
    placeholderRow rnd 4 "Cardano" "ADA" (45 / 100) 400000000 2500000000 ]

/-- The `try/except` around `fetch_crypto_data()` in `get_combined_data`
(app.py lines 181-184): a caught `RequestException`/`ValueError` yields an
empty list. -/
def fetched (response : Except FetchError (List RawCoin)) : List AssetQuote :=
  match fetch_crypto_data response with
  | .ok l => l
  | .error _ => []

/-- The merge step of `get_combined_data` (app.py lines 180-193): API rows
first, then one materialised row per stored user entry, in order. -/
def merged_data (apiRows : List AssetQuote) (users : List UserEntry) : List AssetQuote :=
  apiRows ++ users.map userQuote

/-- The value of the `data` variable of `get_combined_data` right before
`log_history(data)` (app.py lines 180-195): the merge of fetched rows and user
rows, replaced by the synthetic placeholder when that merge is empty. -/
def combinedSnapshot (response : Except FetchError (List RawCoin))
    (users : List UserEntry) (rnd : ℕ → ℚ) : List AssetQuote :=
  if (merged_data (fetched response) users).isEmpty then _placeholder_live_data rnd
  else merged_data (fetched response) users

/-- `get_combined_data` (app.py lines 179-197): fetch (swallowing fetch
errors), merge with user entries, substitute the synthetic placeholder when
the merge is empty, then log to history; a write error raised by
`log_history` propagates, otherwise the snapshot is returned. -/
def get_combined_data (response : Except FetchError (List RawCoin))
    (users : List UserEntry) (rnd : ℕ → ℚ) (fs : HistoryFile) (ts : String) :
    Except WriteError (List AssetQuote × HistoryFile) :=
  (log_history fs (combinedSnapshot response users rnd) ts).map
    (fun fs2 => (combinedSnapshot response users rnd, fs2))

/-- The result record of `compute_stats` (app.py lines 200-225). -/
structure Stats where
  last_updated : String
  total_volume : ℤ
  avg_change : ℚ
  top_gainer : Option AssetQuote
  top_loser : Option AssetQuote
  count : ℕ
deriving DecidableEq, Repr

/-- Descending insertion step used by `sort_values_desc`. -/
def insertDesc (q : AssetQuote) : List AssetQuote → List AssetQuote
  | [] => [q]
  | x :: xs => if x.change ≤ q.change then q :: x :: xs else x :: insertDesc q xs

/-- Ascending insertion step used by `sort_values_asc`, mirror image of
`insertDesc`. -/
def insertAsc (q : AssetQuote) : List AssetQuote → List AssetQuote
  | [] => [q]
  | x :: xs => if q.change ≤ x.change then q :: x :: xs else x :: insertAsc q xs

/-- `df.sort_values("change", ascending=False)` (app.py line 214).  The code
uses the default `kind="quicksort"`, whose order among rows with EQUAL
`change` is implementation-defined (numpy documents quicksort as unstable;
it is stable only below its small-array insertion-sort cutoff).  The
embedding must pick some concrete ordering to stay executable, and uses an
insertion sort; the resulting tie order is one refinement of the unspecified
behaviour, and no theorem in this file relies on where tied rows land. -/
def sort_values_desc (l : List AssetQuote) : List AssetQuote := l.foldr insertDesc []

/-- `df.sort_values("change", ascending=True)` (app.py line 215), with the
same tie-order caveat as `sort_values_desc`. -/
def sort_values_asc (l : List AssetQuote) : List AssetQuote := l.foldr insertAsc []

/-- `compute_stats` (app.py lines 200-225).  `last_updated` (wall-clock) is a
parameter; `total_volume` is `int(df["volume"].sum())`, `avg_change` is the
mean of the `change` column rounded to 2 places, and the top gainer/loser are
the first rows of the descending/ascending sorts. -/
def compute_stats (now : String) (crypto_list : List AssetQuote) : Stats :=
  if crypto_list.isEmpty then
    { last_updated := now, total_volume := 0, avg_change := 0,
      top_gainer := none, top_loser := none, count := 0 }
  else
    { last_updated := now,
      total_volume := pyInt (crypto_list.map (fun q => q.volume)).sum,
      avg_change := pyRound ((crypto_list.map (fun q => q.change)).sum / crypto_list.length) 2,
      top_gainer := (sort_values_desc crypto_list).head?,
      top_loser := (sort_values_asc crypto_list).head?,
      count := crypto_list.length }

/-- Python slice `ps[a:b]` on a list of prices. -/
def pySlice (ps : List ℚ) (a b : ℕ) : List ℚ := (ps.drop a).take (b - a)

/-- The peak test of `_render_price_line_chart` (app.py lines 715-720): inside
the loop `for i in range(2, len(data) - 2)`, a point is a peak when its price
strictly exceeds `max(price[i-2:i])` and `max(price[i+1:i+3])`. -/
def is_peak (ps : List ℚ) (i : ℕ) : Bool :=
  decide (2 ≤ i) && decide (i + 2 < ps.length) &&
  decide (pyMax (pySlice ps (i - 2) i) < ps.getD i 0) &&
  decide (pyMax (pySlice ps (i + 1) (i + 3)) < ps.getD i 0)

/-- The valley test of `_render_price_line_chart` (app.py lines 721-723),
symmetric to `is_peak` with minima. -/
def is_valley (ps : List ℚ) (i : ℕ) : Bool :=
  decide (2 ≤ i) && decide (i + 2 < ps.length) &&
  decide (ps.getD i 0 < pyMin (pySlice ps (i - 2) i)) &&
  decide (ps.getD i 0 < pyMin (pySlice ps (i + 1) (i + 3)))

/-- Formalisation of the claim's wording for a peak: eligible index, price
above the max of the two preceding points, and above the max of the THREE
following points (`ps[i+1:i+4]`). -/
def claimPeak (ps : List ℚ) (i : ℕ) : Prop :=
  2 ≤ i ∧ i + 2 < ps.length ∧
  pyMax (pySlice ps (i - 2) i) < ps.getD i 0 ∧
  pyMax (pySlice ps (i + 1) (i + 4)) < ps.getD i 0

/-- One sample of the per-symbol price series handed to
`_render_candlestick_chart`; time is in epoch minutes. -/
structure PricePoint where
  time : ℕ
  price : ℚ
deriving DecidableEq, Repr

/-- The resample-width choice of `_render_candlestick_chart` (app.py lines
812-818), in minutes: more than 1000 samples gives 1-hour buckets, more than
200 gives 30 minutes, otherwise 10 minutes. -/
def resample_period (n : ℕ) : ℕ := if n > 1000 then 60 else if n > 200 then 30 else 10

/-- One output row of the OHLC aggregation (`opn` models the `open` column,
which is a reserved word here). -/
structure OhlcRow where
  bucket : ℕ
  opn : ℚ
  high : ℚ
  low : ℚ
  close : ℚ
deriving DecidableEq, Repr

/-- The prices of the samples falling into bucket `b` of width `w`, in series
order (the series is time-sorted by the caller, app.py line 630). -/
def bucketPrices (w b : ℕ) (pts : List PricePoint) : List ℚ :=
  (pts.filter (fun p => p.time / w == b)).map (fun p => p.price)

/-- The `resample(...).agg(["first", "max", "min", "last"]).dropna()` step of
`_render_candlestick_chart` (app.py lines 820-823): fixed-width time buckets,
open = first price, high = max, low = min, close = last price per bucket;
buckets with no samples are dropped (only buckets actually hit appear). -/
def ohlc_resample (pts : List PricePoint) : List OhlcRow :=
  ((pts.map (fun p => p.time / resample_period pts.length)).dedup).map (fun b =>
    { bucket := b,
      opn := (bucketPrices (resample_period pts.length) b pts).headD 0,
      high := pyMax (bucketPrices (resample_period pts.length) b pts),
      low := pyMin (bucketPrices (resample_period pts.length) b pts),
      close := (bucketPrices (resample_period pts.length) b pts).getLastD 0 })

/-- Forward fill of a column, as pandas `pct_change` pads missing values
before computing (default `fill_method="pad"`). -/
def ffill (prev : Option ℚ) : List (Option ℚ) → List (Option ℚ)
  | [] => []
  | none :: xs => prev :: ffill prev xs
  | some v :: xs => some v :: ffill (some v) xs

/-- `pivot.pct_change()` on one symbol column (app.py line 1019): simple
period-over-period return, `none` for the first row and wherever no previous
value exists.  (A zero previous price, which would give an infinite float,
is also modelled as missing; prices in this pipeline are positive.) -/
def pct_change_col (col : List (Option ℚ)) : List (Option ℚ) :=
  let f := ffill none col
  (f.zip (none :: f)).map (fun pr =>
    match pr with
    | (some b, some a) => if a = 0 then none else some ((b - a) / a)
    | _ => none)

/-- One cell of `returns.corr()`.  A Pearson coefficient is NaN when there are
no observations or one of the two columns has zero variance (this covers the
single-observation case); otherwise its value is `cov / sqrt varprod`, kept in
exact form since the square root is irrational. -/
inductive CorrEntry
  | nan
  | val (cov varprod : ℚ)
deriving DecidableEq, Repr

/-- Pearson correlation of two aligned columns, in the exact representation of
`CorrEntry` (the normalisations by `n` cancel between numerator and
denominator, so un-normalised central moments are used). -/
def corrEntry (xs ys : List ℚ) : CorrEntry :=
  if xs.length = 0 then .nan
  else
    let n : ℚ := xs.length
    let mx := xs.sum / n
    let my := ys.sum / n
    let cov := ((xs.zip ys).map (fun p => (p.1 - mx) * (p.2 - my))).sum
    let vx := (xs.map (fun x => (x - mx) ^ 2)).sum
    let vy := (ys.map (fun y => (y - my) ^ 2)).sum
    if vx = 0 ∨ vy = 0 then .nan else .val cov (vx * vy)

/-- `returns.corr()` (app.py line 1023): the matrix of pairwise Pearson
correlations between symbol columns. -/
def corrMatrix (cols : List (List ℚ)) : List (List CorrEntry) :=
  cols.map (fun c1 => cols.map (fun c2 => corrEntry c1 c2))

/-- What the correlation section renders: either the informational message
`"Not enough data for correlation."` or a heatmap of the correlation
matrix. -/
inductive CorrOutcome
  | insufficient
  | matrix (m : List (List CorrEntry))
deriving DecidableEq, Repr

/-- The row positions (of the shared pivot time index) at which every symbol
column has a return value: the rows surviving `dropna(how="any")`. -/
def alignedIdx (rcols : List (List (Option ℚ))) : List ℕ :=
  (List.range (rcols.headD []).length).filter
    (fun t => rcols.all (fun c => (c.getD t none).isSome))

/-- The correlation tail of `_render_cmc_trends_and_corr` (app.py lines
1017-1035), from the pivoted price matrix on: per-column returns,
`dropna(how="any")` row alignment, the `returns.empty` guard (which shows the
informational message), and otherwise the correlation heatmap.  The pivot is
represented column-wise: one `List (Option ℚ)` per symbol over the shared,
sorted time index. -/
def render_correlation (cols : List (List (Option ℚ))) : CorrOutcome :=
  if cols.isEmpty || (alignedIdx (cols.map pct_change_col)).isEmpty then .insufficient
  else .matrix (corrMatrix ((cols.map pct_change_col).map
    (fun c => (alignedIdx (cols.map pct_change_col)).map (fun t => (c.getD t none).getD 0))))

/-- Sample provider object used by concrete runs below. -/
def sampleCoin : RawCoin :=
  { id := "bitcoin", name := "Bitcoin", symbol := "btc", current_price := 50000,
    price_change_percentage_24h := some 5, total_volume := 1000000 }

/-- Sample stored user entry used by concrete runs below. -/
def sampleUser : UserEntry :=
  { name := "MyCoin", symbol := "myc", price := 2, change := 10, volume := 100 }

/-- A history-file state whose next append fails. -/
def failFS : HistoryFile := { contents := some [], writeOk := false }

/-- Price series refuting the three-following-points reading of the peak
rule. -/
def cexSeries : List ℚ := [0, 0, 5, 0, 0, 10]

/-- Non-empty snapshot whose volumes sum to one half. -/
def halfVolumeSnapshot : List AssetQuote :=
  [{ name := "Tiny", symbol := "TNY", price := 1, change := 0, volume := 1 / 2, source := "user" }]

/-- Two fully-populated pivot columns over two time points: exactly one
aligned return row survives. -/
def corrColsOneRow : List (List (Option ℚ)) := [[some 1, some 2], [some 1, some 3]]

/-- Constant-price series for the OHLC run (10-minute buckets). -/
def constSeries : List PricePoint := [⟨0, 7⟩, ⟨3, 7⟩, ⟨25, 7⟩]

/-- C10: calling the history logger with an empty snapshot is a no-op on
storage: it neither creates the history file nor appends any row; the file
state is returned unchanged. -/
theorem C10_empty_snapshot_noop (fs : HistoryFile) (ts : String) :
    log_history fs [] ts = Except.ok fs := rfl

/-- C8: merging `k` fetched-and-normalised API rows with `m` user entries is
pure concatenation: exactly `k + m` rows, API rows first then user rows, every
API row tagged `"api"` and every user row tagged `"user"`, with no
deduplication by symbol (the length equation holds for arbitrary inputs,
including repeated symbols). -/
theorem C8_merge_concat (coins : List RawCoin) (users : List UserEntry) :
    fetched (Except.ok coins) = coins.map normalizeCoin ∧
    (merged_data (coins.map normalizeCoin) users).length = coins.length + users.length ∧
    merged_data (coins.map normalizeCoin) users =
      coins.map normalizeCoin ++ users.map userQuote ∧
    (∀ q ∈ coins.map normalizeCoin, q.source = "api") ∧
    (∀ q ∈ users.map userQuote, q.source = "user") := by
  refine ⟨rfl, by simp [merged_data], rfl, ?_, ?_⟩
  · intro q hq
    obtain ⟨c, _, rfl⟩ := List.mem_map.mp hq
    rfl
  · intro q hq
    obtain ⟨u, _, rfl⟩ := List.mem_map.mp hq
    rfl

/-- C5 counterexample: at a concrete state whose append fails, `log_history`
raises instead of swallowing the error, and `get_combined_data` propagates it
instead of returning the merged snapshot. -/
theorem C5_counterexample :
    log_history failFS [userQuote sampleUser] "t1" = Except.error WriteError.ioError ∧
    get_combined_data (Except.ok [sampleCoin]) [sampleUser] (fun _ => 0) failFS "t1" =
      Except.error WriteError.ioError := ⟨rfl, rfl⟩

/-- C5 amended: a failing history write is NOT swallowed: whenever the append
fails, the exception propagates out of `log_history` and `get_combined_data`,
which returns the error instead of the merged snapshot (the logged snapshot is
never empty, because the placeholder replaces an empty merge). -/
theorem C5_amended (response : Except FetchError (List RawCoin)) (users : List UserEntry)
    (rnd : ℕ → ℚ) (fs : HistoryFile) (ts : String) (hw : fs.writeOk = false) :
    get_combined_data response users rnd fs ts = Except.error WriteError.ioError := by
  unfold get_combined_data combinedSnapshot
  by_cases h : (merged_data (fetched response) users).isEmpty = true
  · rw [if_pos h]
    simp [log_history, _placeholder_live_data, hw]
    rfl
  · rw [if_neg h]
    rw [Bool.not_eq_true] at h
    simp [log_history, h, hw]
    rfl

/-- C5 amended witness: instantiation of `C5_amended` at a concrete failing
state. -/
theorem C5_amended_witness :
    failFS.writeOk = false ∧
    get_combined_data (Except.error FetchError.requestException) [] (fun _ => 0) failFS "t2" =
      Except.error WriteError.ioError :=
  ⟨rfl, C5_amended _ _ _ _ _ rfl⟩

/-- C1 counterexample: in the run where the fetch fails and no user entries
exist, the generated placeholder snapshot IS written to the history log: all
five rows appended to the (freshly created) history file carry source
`"demo"`. -/
theorem C1_counterexample :
    ((get_combined_data (Except.error FetchError.requestException) [] (fun _ => 1 / 2)
        { contents := none, writeOk := true } "t0").toOption.map
      (fun r => (r.2.contents.getD []).map (fun h => h.source))) =
      some ["demo", "demo", "demo", "demo", "demo"] := by rfl

/-- C1 amended: demo rows reach the history log exactly in the all-sources
empty run; whenever the merge of fetched rows and user rows is non-empty, the
snapshot handed to `log_history` is that merge, and every one of its rows has
source `"api"` or `"user"` (never `"demo"`). -/
theorem C1_amended (response : Except FetchError (List RawCoin)) (users : List UserEntry)
    (rnd : ℕ → ℚ) (fs : HistoryFile) (ts : String)
    (hne : merged_data (fetched response) users ≠ []) :
    get_combined_data response users rnd fs ts =
      (log_history fs (merged_data (fetched response) users) ts).map
        (fun fs2 => (merged_data (fetched response) users, fs2)) ∧
    ∀ q ∈ merged_data (fetched response) users, q.source = "api" ∨ q.source = "user" := by
  constructor
  · have h : (merged_data (fetched response) users).isEmpty = false := by
      cases hm : merged_data (fetched response) users
      · exact absurd hm hne
      · rfl
    unfold get_combined_data combinedSnapshot
    rw [h]
    simp
  · intro q hq
    unfold merged_data at hq
    rcases List.mem_append.mp hq with h | h
    · left
      unfold fetched fetch_crypto_data at h
      cases response with
      | ok l =>
        simp only [Except.map] at h
        obtain ⟨c, _, rfl⟩ := List.mem_map.mp h
        rfl
      | error e => simp [Except.map] at h
    · right
      obtain ⟨u, _, rfl⟩ := List.mem_map.mp h
      rfl

/-- C1 amended witness: instantiation of `C1_amended` at a successful fetch of
one coin and no user entries. -/
theorem C1_amended_witness :
    merged_data (fetched (Except.ok [sampleCoin])) [] ≠ [] ∧
    (get_combined_data (Except.ok [sampleCoin]) [] (fun _ => 0) {} "t3" =
        (log_history {} (merged_data (fetched (Except.ok [sampleCoin])) []) "t3").map
          (fun fs2 => (merged_data (fetched (Except.ok [sampleCoin])) [], fs2)) ∧
      ∀ q ∈ merged_data (fetched (Except.ok [sampleCoin])) [],
        q.source = "api" ∨ q.source = "user") :=
  ⟨by decide, C1_amended _ _ _ _ _ (by decide)⟩

/-- C7 amended: `total_volume` is the Python `int` truncation of the sum of
the snapshot's volumes, and an empty snapshot yields 0 (but a non-empty
snapshot can yield 0 as well, so the claimed equivalence fails). -/
theorem C7_total_volume_trunc (now : String) (l : List AssetQuote) :
    (compute_stats now l).total_volume = pyInt ((l.map (fun q => q.volume)).sum) ∧
    (compute_stats now []).total_volume = 0 := by
  constructor
  · cases l with
    | nil =>
      show (0 : ℤ) = pyInt 0
      norm_num [pyInt]
    | cons x xs => rfl
  · rfl

/-- C7 counterexample: a non-empty snapshot with total volume one half has
`total_volume = 0`, refuting both that `total_volume` equals the sum of the
volumes and that it is 0 exactly when the snapshot is empty. -/
theorem C7_counterexample :
    ((compute_stats "t" halfVolumeSnapshot).total_volume : ℚ) ≠
      (halfVolumeSnapshot.map (fun q => q.volume)).sum ∧
    (compute_stats "t" halfVolumeSnapshot).total_volume = 0 ∧
    halfVolumeSnapshot ≠ [] := by
  have htd : Int.tdiv 1 2 = 0 := by decide
  have h0 : (compute_stats "t" halfVolumeSnapshot).total_volume = 0 := by
    show pyInt ((halfVolumeSnapshot.map (fun q => q.volume)).sum) = 0
    norm_num [halfVolumeSnapshot, pyInt, htd]
  refine ⟨?_, h0, by simp [halfVolumeSnapshot]⟩
  rw [h0]
  norm_num [halfVolumeSnapshot]

/-- Taking two elements after dropping `a` yields the elements at positions
`a` and `a + 1`. -/
theorem take_two_drop (ps : List ℚ) (a : ℕ) (h : a + 1 < ps.length) :
    (ps.drop a).take 2 = [ps.getD a 0, ps.getD (a + 1) 0] := by
  induction ps generalizing a with
  | nil => simp at h
  | cons p tl ih =>
    cases a with
    | zero =>
      cases tl with
      | nil => simp at h
      | cons q tl2 => rfl
    | succ a2 =>
      have h2 : a2 + 1 < tl.length := by
        simp only [List.length_cons] at h
        omega
      simpa using ih a2 h2

/-- The preceding window `ps[i-2:i]` of an eligible index, as a pair. -/
theorem slice_pre (ps : List ℚ) (i : ℕ) (h2 : 2 ≤ i) (hn : i + 2 < ps.length) :
    pySlice ps (i - 2) i = [ps.getD (i - 2) 0, ps.getD (i - 1) 0] := by
  have e : i - (i - 2) = 2 := by omega
  have e2 : i - 2 + 1 = i - 1 := by omega
  rw [pySlice, e, take_two_drop ps (i - 2) (by omega), e2]

/-- The following window `ps[i+1:i+3]` of an eligible index, as a pair. -/
theorem slice_post (ps : List ℚ) (i : ℕ) (hn : i + 2 < ps.length) :
    pySlice ps (i + 1) (i + 3) = [ps.getD (i + 1) 0, ps.getD (i + 2) 0] := by
  have e : (i + 3) - (i + 1) = 2 := by omega
  have e2 : i + 1 + 1 = i + 2 := by omega
  rw [pySlice, e, take_two_drop ps (i + 1) (by omega), e2]

/-- `pyMax` of a two-element list. -/
theorem pyMax_pair (a b : ℚ) : pyMax [a, b] = max a b := rfl

/-- `pyMin` of a two-element list. -/
theorem pyMin_pair (a b : ℚ) : pyMin [a, b] = min a b := rfl

/-- C2 amended: a point is flagged as a peak if and only if `2 ≤ i ≤ n - 3`
and its price strictly exceeds each of the TWO preceding and each of the TWO
following prices (the code windows are `ps[i-2:i]` and `ps[i+1:i+3]`, not
three following points); symmetrically for valleys with minima; in particular
the first two and last two indices are never flagged. -/
theorem C2_peak_valley_characterisation (ps : List ℚ) (i : ℕ) :
    (is_peak ps i = true ↔
      2 ≤ i ∧ i + 2 < ps.length ∧
      ps.getD (i - 2) 0 < ps.getD i 0 ∧ ps.getD (i - 1) 0 < ps.getD i 0 ∧
      ps.getD (i + 1) 0 < ps.getD i 0 ∧ ps.getD (i + 2) 0 < ps.getD i 0) ∧
    (is_valley ps i = true ↔
      2 ≤ i ∧ i + 2 < ps.length ∧
      ps.getD i 0 < ps.getD (i - 2) 0 ∧ ps.getD i 0 < ps.getD (i - 1) 0 ∧
      ps.getD i 0 < ps.getD (i + 1) 0 ∧ ps.getD i 0 < ps.getD (i + 2) 0) := by
  constructor
  · simp only [is_peak, Bool.and_eq_true, decide_eq_true_eq]
    constructor
    · rintro ⟨⟨⟨h2, hn⟩, hpre⟩, hpost⟩
      rw [slice_pre ps i h2 hn, pyMax_pair, max_lt_iff] at hpre
      rw [slice_post ps i hn, pyMax_pair, max_lt_iff] at hpost
      exact ⟨h2, hn, hpre.1, hpre.2, hpost.1, hpost.2⟩
    · rintro ⟨h2, hn, ha, hb, hc, hd⟩
      refine ⟨⟨⟨h2, hn⟩, ?_⟩, ?_⟩
      · rw [slice_pre ps i h2 hn, pyMax_pair, max_lt_iff]
        exact ⟨ha, hb⟩
      · rw [slice_post ps i hn, pyMax_pair, max_lt_iff]
        exact ⟨hc, hd⟩
  · simp only [is_valley, Bool.and_eq_true, decide_eq_true_eq]
    constructor
    · rintro ⟨⟨⟨h2, hn⟩, hpre⟩, hpost⟩
      rw [slice_pre ps i h2 hn, pyMin_pair, lt_min_iff] at hpre
      rw [slice_post ps i hn, pyMin_pair, lt_min_iff] at hpost
      exact ⟨h2, hn, hpre.1, hpre.2, hpost.1, hpost.2⟩
    · rintro ⟨h2, hn, ha, hb, hc, hd⟩
      refine ⟨⟨⟨h2, hn⟩, ?_⟩, ?_⟩
      · rw [slice_pre ps i h2 hn, pyMin_pair, lt_min_iff]
        exact ⟨ha, hb⟩
      · rw [slice_post ps i hn, pyMin_pair, lt_min_iff]
        exact ⟨hc, hd⟩

/-- C2 counterexample: in the series `[0, 0, 5, 0, 0, 10]` the code flags
index 2 as a peak, although its price 5 does not exceed the maximum of the
three following points (`max {0, 0, 10} = 10`), refuting the claimed
three-following-points condition. -/
theorem C2_counterexample :
    is_peak cexSeries 2 = true ∧ ¬ claimPeak cexSeries 2 := by
  constructor
  · decide
  · unfold claimPeak
    decide

/-- Folding `max` over an all-`c` list starting from `c` stays at `c`. -/
theorem foldl_max_const (c : ℚ) (xs : List ℚ) (h : ∀ x ∈ xs, x = c) :
    xs.foldl max c = c := by
  induction xs with
  | nil => rfl
  | cons x tl ih =>
    have hx : x = c := h x (by simp)
    rw [List.foldl_cons, hx, max_self]
    exact ih (fun y hy => h y (by simp [hy]))

/-- Folding `min` over an all-`c` list starting from `c` stays at `c`. -/
theorem foldl_min_const (c : ℚ) (xs : List ℚ) (h : ∀ x ∈ xs, x = c) :
    xs.foldl min c = c := by
  induction xs with
  | nil => rfl
  | cons x tl ih =>
    have hx : x = c := h x (by simp)
    rw [List.foldl_cons, hx, min_self]
    exact ih (fun y hy => h y (by simp [hy]))

/-- `pyMax` of a non-empty all-`c` list is `c`. -/
theorem pyMax_const (c : ℚ) (xs : List ℚ) (hne : xs ≠ []) (h : ∀ x ∈ xs, x = c) :
    pyMax xs = c := by
  cases xs with
  | nil => exact absurd rfl hne
  | cons x tl =>
    show tl.foldl max x = c
    rw [h x (by simp)]
    exact foldl_max_const c tl (fun y hy => h y (by simp [hy]))

/-- `pyMin` of a non-empty all-`c` list is `c`. -/
theorem pyMin_const (c : ℚ) (xs : List ℚ) (hne : xs ≠ []) (h : ∀ x ∈ xs, x = c) :
    pyMin xs = c := by
  cases xs with
  | nil => exact absurd rfl hne
  | cons x tl =>
    show tl.foldl min x = c
    rw [h x (by simp)]
    exact foldl_min_const c tl (fun y hy => h y (by simp [hy]))

/-- Head (with default) of a non-empty all-`c` list is `c`. -/
theorem headD_const (c : ℚ) (xs : List ℚ) (hne : xs ≠ []) (h : ∀ x ∈ xs, x = c) :
    xs.headD 0 = c := by
  cases xs with
  | nil => exact absurd rfl hne
  | cons x tl => exact h x (by simp)

/-- Last element (with default) of a non-empty all-`c` list is `c`. -/
theorem getLastD_const (c : ℚ) (xs : List ℚ) (d : ℚ) (hne : xs ≠ []) (h : ∀ x ∈ xs, x = c) :
    xs.getLastD d = c := by
  induction xs generalizing d with
  | nil => exact absurd rfl hne
  | cons x tl ih =>
    cases tl with
    | nil => simpa using h x (by simp)
    | cons y tl2 =>
      have step : (x :: y :: tl2).getLastD d = (y :: tl2).getLastD x := rfl
      rw [step]
      exact ih x (by simp) (fun z hz => h z (by simp [hz]))

/-- C9: OHLC-resampling a constant-price series yields
`open = high = low = close` (all equal to the constant) for every produced
bucket row; only non-empty buckets are produced. -/
theorem C9_constant_ohlc (pts : List PricePoint) (c : ℚ) (hc : ∀ p ∈ pts, p.price = c) :
    ∀ row ∈ ohlc_resample pts,
      row.opn = c ∧ row.high = c ∧ row.low = c ∧ row.close = c := by
  intro row hrow
  unfold ohlc_resample at hrow
  obtain ⟨b, hb, hrowEq⟩ := List.mem_map.mp hrow
  have hbmem : b ∈ pts.map (fun p => p.time / resample_period pts.length) :=
    List.mem_dedup.mp hb
  obtain ⟨p0, hp0, hp0b⟩ := List.mem_map.mp hbmem
  have hp0f : p0 ∈ pts.filter (fun p => p.time / resample_period pts.length == b) := by
    rw [List.mem_filter]
    exact ⟨hp0, by simp [hp0b]⟩
  have hxne : bucketPrices (resample_period pts.length) b pts ≠ [] := by
    intro hemp
    have hmem : p0.price ∈ bucketPrices (resample_period pts.length) b pts :=
      List.mem_map.mpr ⟨p0, hp0f, rfl⟩
    rw [hemp] at hmem
    exact absurd hmem (List.not_mem_nil _)
  have hall : ∀ x ∈ bucketPrices (resample_period pts.length) b pts, x = c := by
    intro x hx
    obtain ⟨p, hp, hpx⟩ := List.mem_map.mp hx
    rw [← hpx]
    exact hc p (List.mem_filter.mp hp).1
  rw [← hrowEq]
  exact ⟨headD_const c _ hxne hall, pyMax_const c _ hxne hall,
    pyMin_const c _ hxne hall, getLastD_const c _ 0 hxne hall⟩

/-- C9 witness: instantiation of `C9_constant_ohlc` at a three-sample series
of constant price 7 spanning two 10-minute buckets. -/
theorem C9_witness :
    (∀ p ∈ constSeries, p.price = 7) ∧
    ∀ row ∈ ohlc_resample constSeries,
      row.opn = 7 ∧ row.high = 7 ∧ row.low = 7 ∧ row.close = 7 :=
  ⟨by decide, C9_constant_ohlc constSeries 7 (by decide)⟩

/-- C6: when the primary fetch raises and no other API source contributes, the
caught error yields an empty API contribution, `get_combined_data` returns
normally (no exception), and the snapshot is exactly the materialised user
entries, or the synthetic placeholder when no user entries exist. -/
theorem C6_fetch_failure_fallback (err : FetchError) (users : List UserEntry)
    (rnd : ℕ → ℚ) (fs : HistoryFile) (ts : String) (hw : fs.writeOk = true) :
    fetched (Except.error err) = [] ∧
    get_combined_data (Except.error err) users rnd fs ts =
      Except.ok
        ((if users.isEmpty then _placeholder_live_data rnd else users.map userQuote),
          { fs with contents := some (fs.contents.getD [] ++
              (if users.isEmpty then _placeholder_live_data rnd
               else users.map userQuote).map (quoteRecord ts)) }) := by
  refine ⟨rfl, ?_⟩
  have hsnap : combinedSnapshot (Except.error err) users rnd =
      if users.isEmpty then _placeholder_live_data rnd else users.map userQuote := by
    unfold combinedSnapshot
    cases users with
    | nil => rfl
    | cons u us => rfl
  unfold get_combined_data
  rw [hsnap]
  cases users with
  | nil =>
    simp only [List.isEmpty_nil, if_pos]
    rw [log_history]
    simp [_placeholder_live_data, hw]
    rfl
  | cons u us =>
    simp only [List.isEmpty_cons, Bool.false_eq_true, if_neg]
    rw [log_history]
    simp [hw]
    rfl

/-- C6 witness: instantiation of `C6_fetch_failure_fallback` at a failed fetch
with one stored user entry. -/
theorem C6_witness :
    ({} : HistoryFile).writeOk = true ∧
    (fetched (Except.error FetchError.requestException) = [] ∧
      get_combined_data (Except.error FetchError.requestException) [sampleUser] (fun _ => 0)
          {} "t5" =
        Except.ok
          ((if ([sampleUser] : List UserEntry).isEmpty then _placeholder_live_data (fun _ => 0)
            else [sampleUser].map userQuote),
            { ({} : HistoryFile) with contents := some ((({} : HistoryFile).contents.getD []) ++
                (if ([sampleUser] : List UserEntry).isEmpty then
                  _placeholder_live_data (fun _ => 0)
                 else [sampleUser].map userQuote).map (quoteRecord "t5")) })) :=
  ⟨rfl, C6_fetch_failure_fallback FetchError.requestException [sampleUser] (fun _ => 0) {} "t5" rfl⟩

/-- A Pearson correlation over a single observation is NaN: the variance of a
one-element column is 0. -/
theorem corrEntry_single (x : ℚ) (ys : List ℚ) : corrEntry [x] ys = CorrEntry.nan := by
  unfold corrEntry
  rw [if_neg (by simp)]
  rw [if_pos]
  left
  simp

/-- The per-column returns of the concrete two-point pivot: the first row is
always missing, the second is a well-defined return. -/
theorem pct_cols_oneRow :
    corrColsOneRow.map pct_change_col = [[none, some 1], [none, some 2]] := by
  simp only [corrColsOneRow, pct_change_col, ffill, List.map_cons, List.map_nil,
    List.zip_cons_cons, List.zip_nil_right]
  norm_num

/-- The aligned index of the concrete two-point pivot: only position 1
survives `dropna`. -/
theorem aligned_oneRow : alignedIdx (corrColsOneRow.map pct_change_col) = [1] := by
  rw [pct_cols_oneRow]
  decide

/-- C4 counterexample: with two symbols over two time points (one aligned
return row, hence fewer than 2), the code does not report insufficient data:
it renders a correlation matrix every entry of which is NaN. -/
theorem C4_counterexample :
    render_correlation corrColsOneRow =
      CorrOutcome.matrix [[CorrEntry.nan, CorrEntry.nan], [CorrEntry.nan, CorrEntry.nan]] ∧
    (alignedIdx (corrColsOneRow.map pct_change_col)).length = 1 := by
  constructor
  · unfold render_correlation
    rw [aligned_oneRow, pct_cols_oneRow]
    rw [if_neg (by simp [corrColsOneRow])]
    simp [corrMatrix, corrEntry_single, List.getD]
  · rw [aligned_oneRow]
    rfl

/-- C4 amended: the insufficient-data message is shown exactly when no symbol
column exists or no aligned return row survives `dropna`; in particular, with
exactly one aligned return row a correlation matrix is displayed, and every
entry of it is NaN. -/
theorem C4_correlation_guard (cols : List (List (Option ℚ))) :
    (render_correlation cols = CorrOutcome.insufficient ↔
      cols = [] ∨ alignedIdx (cols.map pct_change_col) = []) ∧
    ((alignedIdx (cols.map pct_change_col)).length = 1 →
      ∃ m, render_correlation cols = CorrOutcome.matrix m ∧
        ∀ row ∈ m, ∀ e ∈ row, e = CorrEntry.nan) := by
  constructor
  · unfold render_correlation
    by_cases hb : (cols.isEmpty || (alignedIdx (cols.map pct_change_col)).isEmpty) = true
    · rw [if_pos hb]
      simp only [true_iff]
      simp only [Bool.or_eq_true] at hb
      rcases hb with h | h
      · left
        exact List.isEmpty_iff.mp h
      · right
        exact List.isEmpty_iff.mp h
    · rw [if_neg hb]
      constructor
      · intro h
        exact absurd h (by simp)
      · intro h
        exfalso
        apply hb
        rcases h with h | h
        · rw [h]
          rfl
        · rw [h]
          simp
  · intro hlen
    obtain ⟨t, ht⟩ := List.length_eq_one.mp hlen
    refine ⟨corrMatrix ((cols.map pct_change_col).map
      (fun c => (alignedIdx (cols.map pct_change_col)).map (fun u => (c.getD u none).getD 0))),
      ?_, ?_⟩
    · unfold render_correlation
      rw [if_neg ?_]
      intro hor
      simp only [Bool.or_eq_true] at hor
      rcases hor with h | h
      · have hnil : cols = [] := List.isEmpty_iff.mp h
        rw [hnil] at hlen
        simp [alignedIdx] at hlen
      · rw [List.isEmpty_iff.mp h] at hlen
        simp at hlen
    · intro row hrow e he
      obtain ⟨c1, hc1, hrowEq⟩ := List.mem_map.mp hrow
      rw [← hrowEq] at he
      obtain ⟨c2, hc2, heEq⟩ := List.mem_map.mp he
      obtain ⟨c0, hc0, hc1Eq⟩ := List.mem_map.mp hc1
      rw [← heEq, ← hc1Eq, ht]
      exact corrEntry_single _ _

/-- C4 amended witness: instantiation of `C4_correlation_guard` at the
concrete pivot with exactly one aligned return row. -/
theorem C4_guard_witness :
    (alignedIdx (corrColsOneRow.map pct_change_col)).length = 1 ∧
    ((render_correlation corrColsOneRow = CorrOutcome.insufficient ↔
        corrColsOneRow = [] ∨ alignedIdx (corrColsOneRow.map pct_change_col) = []) ∧
      ((alignedIdx (corrColsOneRow.map pct_change_col)).length = 1 →
        ∃ m, render_correlation corrColsOneRow = CorrOutcome.matrix m ∧
          ∀ row ∈ m, ∀ e ∈ row, e = CorrEntry.nan)) :=
  ⟨by rw [aligned_oneRow]; rfl, C4_correlation_guard corrColsOneRow⟩

end CryptoApp
